import Mathlib

/-!
Verification of the weaponballs arena-combat repository.

The combat core lives in `src/game/weaponballs/game.js` (second revision,
lines 592-1821, which the claim sources cite), `utils.js`, `player.js`,
`gameConfig.js`, and the hitbox-debug revision `src/unnamed/part_001`
(scythe polygon).  Coordinates, health and timestamps are embedded as
rationals: every arithmetic operation the claims mention is exact in
JavaScript doubles at the ranges involved, so ℚ is a faithful carrier.
Rendering-only state (colour strings, canvas drawing) and sound playback
are not modelled; where a function also performs a velocity knockback
normalised by `Math.hypot` (an irrational scaling irrelevant to every
claim, which concern health, statistics, widths and timestamps) the doc
comment of the embedded definition says so.
-/

namespace WeaponBalls

/-- A 2-D point `{x, y}` as used throughout `utils.js` and `game.js`. -/
structure Pt where
  x : ℚ
  y : ℚ
deriving DecidableEq, Repr

/-- Squared distance between two points. -/
def distSqPt (p q : Pt) : ℚ :=
  (q.x - p.x) ^ 2 + (q.y - p.y) ^ 2

/-- `distancePointToSegmentSquared(p, a, b)` from `utils.js:105-121`:
project `p` onto segment `ab`, clamping the parameter `t` to `[0,1]`,
with the degenerate zero-length segment falling back to point distance. -/
def distancePointToSegmentSquared (p a b : Pt) : ℚ :=
  let dx := b.x - a.x
  let dy := b.y - a.y
  let lengthSq := dx * dx + dy * dy
  if lengthSq = 0 then
    (p.x - a.x) * (p.x - a.x) + (p.y - a.y) * (p.y - a.y)
  else
    let t := ((p.x - a.x) * dx + (p.y - a.y) * dy) / lengthSq
    let t := max 0 (min 1 t)
    let projX := a.x + t * dx
    let projY := a.y + t * dy
    (projX - p.x) * (projX - p.x) + (projY - p.y) * (projY - p.y)

/-- A circle (player body or other round hitbox): centre and radius. -/
structure Circle where
  x : ℚ
  y : ℚ
  radius : ℚ
deriving DecidableEq, Repr

/-- `circleCollision(p1, p2)` from `utils.js:26-32`: the comparison is the
STRICT `distSq < minDist * minDist`. -/
def circleCollisionUtils (p1 p2 : Circle) : Bool :=
  let dx := p2.x - p1.x
  let dy := p2.y - p1.y
  let distSq := dx * dx + dy * dy
  let minDist := p1.radius + p2.radius
  decide (distSq < minDist * minDist)

/-- `circleCollision(a, b)` from the first revision of `game.js`
(lines 136-141): the comparison there is the inclusive
`dx*dx + dy*dy <= r*r`. -/
def circleCollisionGame (a b : Circle) : Bool :=
  let dx := a.x - b.x
  let dy := a.y - b.y
  let r := a.radius + b.radius
  decide (dx * dx + dy * dy ≤ r * r)

/-- The body-body collision property as the spec words it (§8: collision
iff Euclidean distance ≤ sum of radii, boundary inclusive), stated with
the real square-root distance.  This definition follows the SPEC's words,
for comparison against the code's `circleCollision` implementations. -/
def bodyCollisionSpec (a b : Circle) : Prop :=
  Real.sqrt (((b.x - a.x : ℚ) : ℝ) ^ 2 + ((b.y - a.y : ℚ) : ℝ) ^ 2)
    ≤ ((a.radius : ℚ) : ℝ) + ((b.radius : ℚ) : ℝ)

/-- The strict variant of the spec property: distance strictly less than
the sum of the radii (boundary exclusive). -/
def bodyCollisionSpecStrict (a b : Circle) : Prop :=
  Real.sqrt (((b.x - a.x : ℚ) : ℝ) ^ 2 + ((b.y - a.y : ℚ) : ℝ) ^ 2)
    < ((a.radius : ℚ) : ℝ) + ((b.radius : ℚ) : ℝ)

/-- `lineCircleCollision(a, b, center, radius)` from `utils.js:46-64`:
the closest point of segment `ab` to the centre lies within the radius
(inclusive comparison in squared form). -/
def lineCircleCollision (a b c : Pt) (r : ℚ) : Bool :=
  decide (distancePointToSegmentSquared c a b ≤ r * r)

/-- Weapon kinds of `WEAPON_TYPES` in `gameConfig.js:74-328`. -/
inductive WeaponType where
  | sword | spear | dagger | bow | shield | dummy | staff | scythe | unarmed
deriving DecidableEq, Repr

/-- One poison stack as pushed by `Game.applyPoisonStack` (`game.js:1462-1472`):
`{ owner, damage, remainingDamage, duration, remainingTime }`.  The owner
reference is kept as the owning player's id. -/
structure PoisonStack where
  ownerId : ℕ
  damage : ℚ
  remainingDamage : ℚ
  duration : ℚ
  remainingTime : ℚ
deriving DecidableEq, Repr

/-- The combat-relevant state of a `Player` (`player.js:10-116`).  The
weapon angle is carried as its direction unit vector
`(weaponDirX, weaponDirY) = (cos weaponAngle, sin weaponAngle)`, which is
the only form in which the angle enters the collision and damage code
(`getWeaponBase` / `getWeaponTip`).  `lastHit` is the per-opponent
last-hit timestamp map, kept as an association list.  Rendering-only
fields (`color`, `flashColor`, texture data) are not modelled. -/
structure Player where
  id : ℕ
  x : ℚ
  y : ℚ
  vx : ℚ
  vy : ℚ
  radius : ℚ
  health : ℚ
  maxHealth : ℚ
  weaponType : WeaponType
  damage : ℚ
  damageDealt : ℚ
  damageReceived : ℚ
  weaponLength : ℚ
  weaponThickness : ℚ
  weaponAngularVelocity : ℚ
  weaponDirX : ℚ
  weaponDirY : ℚ
  lastHit : List (ℕ × ℚ)
  flashUntil : ℚ
  dead : Bool
  accelSpeed : ℚ
  maxAccel : ℚ
  arrowCount : ℕ
  fireballDamage : ℚ
  fireballRadius : ℚ
  poisonDamage : ℚ
  poisonDuration : ℚ
  poisonStacks : List PoisonStack

/-- Record `m[k] = v` in an association-list map. -/
def assocSet (m : List (ℕ × ℚ)) (k : ℕ) (v : ℚ) : List (ℕ × ℚ) :=
  (k, v) :: m.filter (fun kv => kv.1 ≠ k)

/-- Look `m[k]` up in an association-list map. -/
def assocGet (m : List (ℕ × ℚ)) (k : ℕ) : Option ℚ :=
  (m.find? (fun kv => kv.1 = k)).map (fun kv => kv.2)

/-- `Player.getWeaponBase` (`player.js:242-248`): the weapon shaft starts
on the body edge along the weapon angle. -/
def weaponBase (p : Player) : Pt :=
  ⟨p.x + p.weaponDirX * p.radius, p.y + p.weaponDirY * p.radius⟩

/-- `Player.getWeaponTip` (`player.js:230-236`): the tip sits at
`radius + weaponLength` from the centre along the weapon angle. -/
def weaponTip (p : Player) : Pt :=
  ⟨p.x + p.weaponDirX * (p.radius + p.weaponLength),
   p.y + p.weaponDirY * (p.radius + p.weaponLength)⟩

/-- The player's body circle, as passed to `circleCollision`. -/
def bodyCircle (p : Player) : Circle :=
  ⟨p.x, p.y, p.radius⟩

/-- `GRAVITY` from `gameConfig.js:19`. -/
def GRAVITY : ℚ := 1 / 10000

/-- `POINT_SPEED` from `gameConfig.js:23`. -/
def POINT_SPEED : ℚ := 1 / 1000

/-- `MAX_RANGE` from `gameConfig.js:26`. -/
def MAX_RANGE : ℚ := 350

/-- The melee/unarmed `hitCooldown` of `Game.handleWeaponInteractions`
(`game.js:968`), in milliseconds. -/
def hitCooldown : ℚ := 300

/-- The per-weapon-kind `buff` callbacks of `WEAPON_TYPES`
(`gameConfig.js:74-328`), dispatched on the player's weapon kind exactly
as `WEAPON_TYPES[player.weaponType].buff(player)` does:
sword `damage += 5`; spear `damage += 3` and
`weaponLength = min(weaponLength + 10, MAX_RANGE)`; dagger
`damage += 0.5` and angular-velocity magnitude `+ 5 * POINT_SPEED`
keeping its sign; bow `arrowCount += 1`; shield
`weaponThickness = min(weaponThickness + 5, 80)`; dummy no-op; staff
`fireballDamage += 1` and `fireballRadius += 10`; scythe
`poisonDamage += 2` and `poisonDuration += 1000`; unarmed
`damage += 0.3`. -/
def applyBuff (p : Player) : Player :=
  match p.weaponType with
  | .sword => { p with damage := p.damage + 5 }
  | .spear => { p with
      damage := p.damage + 3
      weaponLength := min (p.weaponLength + 10) MAX_RANGE }
  | .dagger =>
      let sign : ℚ := if 0 ≤ p.weaponAngularVelocity then 1 else -1
      { p with
        damage := p.damage + 1 / 2
        weaponAngularVelocity := sign * (|p.weaponAngularVelocity| + 5 * POINT_SPEED) }
  | .bow => { p with arrowCount := p.arrowCount + 1 }
  | .shield => { p with weaponThickness := min (p.weaponThickness + 5) 80 }
  | .dummy => p
  | .staff => { p with
      fireballDamage := p.fireballDamage + 1
      fireballRadius := p.fireballRadius + 10 }
  | .scythe => { p with
      poisonDamage := p.poisonDamage + 2
      poisonDuration := p.poisonDuration + 1000 }
  | .unarmed => { p with damage := p.damage + 3 / 10 }

/-- `Game.applyPoisonStack(owner, target)` (`game.js:1462-1472`): push a
stack carrying the owner's current poison damage and duration onto the
target, provided both are positive. -/
def applyPoisonStack (owner target : Player) : Player :=
  if 0 < owner.poisonDamage ∧ 0 < owner.poisonDuration then
    { target with poisonStacks := target.poisonStacks ++
        [⟨owner.id, owner.poisonDamage, owner.poisonDamage,
          owner.poisonDuration, owner.poisonDuration⟩] }
  else target

/-- `Game.applyDamage(attacker, target, damage, time)` (`game.js:1151-1178`):
subtract `damage` from the target's health and clamp at zero, add the
unclamped amount to `attacker.damageDealt` and `target.damageReceived`,
apply the attacker's weapon buff, flash the target until `time + 50`,
record `attacker.lastHit[target.id] = time`, and push a poison stack when
the attacker wields the scythe.  Returns the updated attacker and target
together with the new global `pauseUntil` the method sets.  (The `hit`
sound playback has no state effect and is not modelled.) -/
def applyDamage (attacker target : Player) (damage time : ℚ) :
    Player × Player × ℚ :=
  let target1 := { target with
    health := max 0 (target.health - damage)
    damageReceived := target.damageReceived + damage
    flashUntil := time + 50 }
  let attacker1 := applyBuff
    { attacker with damageDealt := attacker.damageDealt + damage }
  let attacker2 := { attacker1 with
    lastHit := assocSet attacker1.lastHit target.id time }
  let target2 := if attacker.weaponType = .scythe
    then applyPoisonStack attacker2 target1 else target1
  (attacker2, target2, time + 50)

/-- The shield-block branch of `Game.handleWeaponInteractions`
(`game.js:1069-1121`, identically `src/unnamed/part_001:563-592`): when
exactly one of a colliding weapon pair is a shield and the non-shield
attacker is alive, the attacker takes its own `damage` (clamped at 0),
the shield defender is credited that damage and buffed (widened), the
attacker is flashed, and `defender.lastHit[attacker.id] = time` is
recorded — no cooldown is consulted anywhere in the branch.  The
attacker knockback (normalised by `Math.hypot`, `game.js:1094-1110`) only
touches `vx`/`vy`, which no claim about this branch concerns, and is not
modelled.  Returns (attacker, defender, pauseUntil). -/
def shieldClash (attacker defender : Player) (time : ℚ) :
    Player × Player × ℚ :=
  if 0 < attacker.health then
    let d := attacker.damage
    let attacker1 := { attacker with
      health := max 0 (attacker.health - d)
      damageReceived := attacker.damageReceived + d
      flashUntil := time + 50 }
    let defender1 := applyBuff
      { defender with damageDealt := defender.damageDealt + d }
    let defender2 := { defender1 with
      lastHit := assocSet defender1.lastHit attacker.id time }
    (attacker1, defender2, time + 50)
  else (attacker, defender, time)

/-- An arrow (`game.js:1210`): position, velocity, owning player id and
damage (always spawned with `damage: 1`). -/
structure Arrow where
  x : ℚ
  y : ℚ
  vx : ℚ
  vy : ℚ
  ownerId : ℕ
  damage : ℚ
deriving DecidableEq, Repr

/-- The arrow-versus-weapon parry step of `Game.updateArrows`
(`game.js:1239-1298`) for one non-owner `target`: if the arrow lies
within `weaponThickness/2 + arrowRadius` (`arrowRadius = 3`) of the
target's weapon segment the arrow is consumed; if moreover the target
wields the shield and the arrow's owner is alive, the arrow's damage is
reflected onto the owner (clamped at 0), credited to the shield wielder,
who is buffed (widened), the owner is flashed, and
`target.lastHit[owner.id] = time` is recorded.  The owner knockback
(`game.js:1266-1283`, `Math.hypot`-normalised velocity push) is not
modelled.  Returns (consumed, owner, target, pauseUntil). -/
def arrowWeaponParry (ar : Arrow) (owner target : Player) (time : ℚ) :
    Bool × Player × Player × ℚ :=
  let distSq := distancePointToSegmentSquared ⟨ar.x, ar.y⟩
    (weaponBase target) (weaponTip target)
  let threshold := target.weaponThickness / 2 + 3
  if distSq ≤ threshold * threshold then
    if target.weaponType = .shield ∧ 0 < owner.health then
      let owner1 := { owner with
        health := max 0 (owner.health - ar.damage)
        damageReceived := owner.damageReceived + ar.damage
        flashUntil := time + 50 }
      let target1 := applyBuff
        { target with damageDealt := target.damageDealt + ar.damage }
      let target2 := { target1 with
        lastHit := assocSet target1.lastHit owner.id time }
      (true, owner1, target2, time + 50)
    else (true, owner, target, time)
  else (false, owner, target, time)

/-- The arrow-versus-body hit of `Game.updateArrows` (`game.js:1300-1325`)
once contact with a living non-owner body is established: the target
loses the arrow's damage (clamped at 0), the stats are credited, the
owner's weapon buff fires, and the target flashes until `time + 80`. -/
def arrowBodyHit (ar : Arrow) (owner target : Player) (time : ℚ) :
    Player × Player :=
  let target1 := { target with
    health := max 0 (target.health - ar.damage)
    damageReceived := target.damageReceived + ar.damage
    flashUntil := time + 80 }
  let owner1 := applyBuff
    { owner with damageDealt := owner.damageDealt + ar.damage }
  (owner1, target1)

/-- A staff fireball (`game.js:1357`): position, velocity, owning player
id, damage and explosion radius. -/
structure Fireball where
  x : ℚ
  y : ℚ
  vx : ℚ
  vy : ℚ
  ownerId : ℕ
  damage : ℚ
  radius : ℚ
deriving DecidableEq, Repr

/-- The victim test of `Game.explodeFireball` (`game.js:1425-1429`): a
player is damaged by the detonation iff it is not the owner (the source
compares object identity `target === owner`; player ids are unique, so id
comparison is equivalent), is alive, and its centre lies within the
fireball's radius of the detonation point (inclusive, in squared form). -/
def fbVictim (fb : Fireball) (t : Player) : Bool :=
  decide (t.id ≠ fb.ownerId ∧ 0 < t.health ∧
    (t.x - fb.x) ^ 2 + (t.y - fb.y) ^ 2 ≤ fb.radius ^ 2)

/-- The per-victim effect of `Game.explodeFireball` (`game.js:1429-1443`):
subtract the fireball damage (clamped at zero), credit
`damageReceived`, and flash until `time + 80`.  Non-victims are left
unchanged. -/
def fbApply (fb : Fireball) (time : ℚ) (t : Player) : Player :=
  if fbVictim fb t then
    { t with
      health := max 0 (t.health - fb.damage)
      damageReceived := t.damageReceived + fb.damage
      flashUntil := time + 80 }
  else t

/-- `Game.explodeFireball(fb, time)` (`game.js:1421-1455`) acting on the
player list: every victim is damaged independently (the loop touches each
player once); the second component counts the victims. -/
def explodeFireball (fb : Fireball) (time : ℚ) (players : List Player) :
    List Player × ℕ :=
  (players.map (fbApply fb time), players.countP (fbVictim fb))

/-- The owner-side effect of `Game.explodeFireball`: inside the loop the
owner is credited `fb.damage` of `damageDealt` once per victim
(`game.js:1435`), and after the loop the owner's weapon buff is applied
exactly once iff `hitSomeone` was set (`game.js:1446-1451`). -/
def explodeFireballOwner (fb : Fireball) (players : List Player)
    (owner : Player) : Player :=
  let n := players.countP (fbVictim fb)
  let owner1 := { owner with damageDealt := owner.damageDealt + fb.damage * n }
  if n ≠ 0 then applyBuff owner1 else owner1

/-- One stack step of `Game.updatePoisonEffects` (`game.js:1485-1510`),
threading the target's `(health, damageReceived, flashUntil)` through:
`rate = damage / duration`, `dmg = rate * delta`,
`actual = min dmg remainingDamage`; health and stats change only when
`actual > 0` and the target is alive; `remainingDamage -= actual` and
`remainingTime -= delta` happen unconditionally; the stack is kept iff
both remainders stay positive.  (In the source `duration` is always
positive because `applyPoisonStack` only pushes stacks with
`dur > 0`.) -/
def poisonStackStep (delta time : ℚ) (h dr f : ℚ) (st : PoisonStack) :
    ℚ × ℚ × ℚ × Option PoisonStack :=
  let rate := st.damage / st.duration
  let dmg := rate * delta
  let actual := min dmg st.remainingDamage
  let applied := 0 < actual ∧ 0 < h
  let h1 := if applied then max 0 (h - actual) else h
  let dr1 := if applied then dr + actual else dr
  let f1 := if applied then max f (time + 50) else f
  let rd := st.remainingDamage - actual
  let rt := st.remainingTime - delta
  let kept := if 0 < rd ∧ 0 < rt then
      some { st with remainingDamage := rd, remainingTime := rt }
    else none
  (h1, dr1, f1, kept)

/-- Fold of `poisonStackStep` over a stack list in order, returning the
final health, damageReceived, flashUntil and the surviving stacks. -/
def poisonFold (delta time : ℚ) (h dr f : ℚ) :
    List PoisonStack → ℚ × ℚ × ℚ × List PoisonStack
  | [] => (h, dr, f, [])
  | st :: rest =>
    let r := poisonStackStep delta time h dr f st
    let rec1 := poisonFold delta time r.1 r.2.1 r.2.2.1 rest
    (rec1.1, rec1.2.1, rec1.2.2.1,
      (r.2.2.2.toList) ++ rec1.2.2.2)

/-- The poison-affected slice of a target player. -/
structure PoisonTarget where
  health : ℚ
  damageReceived : ℚ
  flashUntil : ℚ
  poisonStacks : List PoisonStack
deriving DecidableEq, Repr

/-- `Game.updatePoisonEffects(delta, time)` (`game.js:1481-1513`)
restricted to one target: process each stack in order and keep only the
stacks whose remaining damage and remaining time are still positive.
(The per-stack `stack.owner.damageDealt += actual` credit mirrors the
`damageReceived` increment one-for-one and is not tracked separately.) -/
def updatePoisonEffectsTarget (delta time : ℚ) (tp : PoisonTarget) :
    PoisonTarget :=
  let r := poisonFold delta time tp.health tp.damageReceived tp.flashUntil tp.poisonStacks
  ⟨r.1, r.2.1, r.2.2.1, r.2.2.2⟩

/-- `Game.updateDeaths(time)` (`game.js:906-919`) restricted to one
player: on the frame where health has reached zero and the `dead` flag is
not yet set, clamp health to zero, set `dead`, and zero the velocity.
(The source also sets a `rotationSpeed` property that no other code
reads — notably NOT `weaponAngularVelocity` — and spawns a death
effect, which is rendering-only.) -/
def updateDeathCheck (p : Player) : Player :=
  if p.health ≤ 0 ∧ ¬p.dead then
    { p with health := 0, dead := true, vx := 0, vy := 0 }
  else p

/-- The prefix of `Player.update(delta)` (`player.js:119-136`) up to and
including the dead-player early return: the unarmed acceleration
multiplier, the position integration `x += vx*delta; y += vy*delta`, and
the gravity update `vy += GRAVITY*delta`, after which the source returns
immediately when `this.dead` is set.  For a dead player this IS the whole
of `Player.update`; the alive-only remainder (wall bounces, the
`Math.hypot` speed clamp, obstacle resolution and the weapon-angle
advance, `player.js:141-227`) is unreachable for dead players and is not
modelled. -/
def updateThroughDeadCheck (delta : ℚ) (p : Player) : Player :=
  let p1 := if p.weaponType = .unarmed then
      let acc := min (p.accelSpeed + 1 / 1000) p.maxAccel
      { p with accelSpeed := acc, vx := p.vx * (1 + acc), vy := p.vy * (1 + acc) }
    else p
  { p1 with
    x := p1.x + p1.vx * delta
    y := p1.y + p1.vy * delta
    vy := p1.vy + GRAVITY * delta }

/-- The attacker→target hit gate of the melee and unarmed paths of
`Game.handleWeaponInteractions` (`game.js:986-987, 1001, 1024-1027`)
combined with the timestamp recording of `Game.applyDamage`
(`game.js:1170-1171`): a hit attempt at time `t` dispatches
`applyDamage` iff `t - last > hitCooldown` where `last` is
`attacker.lastHit[target.id] || 0`, and a dispatch updates `last := t`.
`dispatchTimes evs last` runs a list of `(hitDetected, time)` attempt
events through the gate and returns the timestamps at which
`applyDamage` was actually invoked, in order. -/
def dispatchTimes : List (Bool × ℚ) → ℚ → List ℚ
  | [], _ => []
  | (hit, t) :: rest, last =>
    if hit ∧ hitCooldown < t - last then t :: dispatchTimes rest t
    else dispatchTimes rest last

/-- `buildScythePolygon(p, resolution)` from `src/unnamed/part_001:116-155`,
with the pose data the source derives from the player made explicit:
`base` is the weapon base, `dir` the unit direction `(tip-base)/len`
(`len` equals the player's `weaponLength` by `getWeaponBase` /
`getWeaponTip`), `L` the weapon length, `r` the shaft fraction
(`scytheShaftRatio`, default 0.55), `b` the blade-radius fraction
(`scytheBladeRadiusRatio`, default 0.45) and `halfW` half the weapon
thickness.  The semicircular cap samples the arc from -90° to +90°
around the weapon axis; `arc` carries the sample unit vectors
`(cos d, sin d)` for the sampled axis offsets `d`, so each arc point is
`shaftEnd + bladeRadius * (dir.x*u.x - dir.y*u.y, dir.y*u.x + dir.x*u.y)`
by the angle-addition formulas the source's
`cos(baseAngle + d) / sin(baseAngle + d)` expand to.  The vertex order is
`leftBase, leftEnd, arc…, rightEnd, rightBase` exactly as in the
source. -/
def buildScythePolygon (base dir : Pt) (L r b halfW : ℚ) (arc : List Pt) :
    List Pt :=
  let shaftLen := L * r
  let bladeRadius := L * b
  let nx := -dir.y
  let ny := dir.x
  let shaftEnd : Pt := ⟨base.x + dir.x * shaftLen, base.y + dir.y * shaftLen⟩
  let leftBase : Pt := ⟨base.x + nx * halfW, base.y + ny * halfW⟩
  let rightBase : Pt := ⟨base.x - nx * halfW, base.y - ny * halfW⟩
  let leftEnd : Pt := ⟨shaftEnd.x + nx * halfW, shaftEnd.y + ny * halfW⟩
  let rightEnd : Pt := ⟨shaftEnd.x - nx * halfW, shaftEnd.y - ny * halfW⟩
  let semi := arc.map (fun u =>
    (⟨shaftEnd.x + bladeRadius * (dir.x * u.x - dir.y * u.y),
      shaftEnd.y + bladeRadius * (dir.y * u.x + dir.x * u.y)⟩ : Pt))
  leftBase :: leftEnd :: (semi ++ [rightEnd, rightBase])

/-- A concrete player value (the default sword spawn of `Game.init` and
`Player`'s constructor defaults) used to instantiate theorems at closed
inputs. -/
def basePlayer : Player :=
  { id := 0, x := 100, y := 100, vx := 0, vy := 0, radius := 20,
    health := 250, maxHealth := 250, weaponType := .sword, damage := 5,
    damageDealt := 0, damageReceived := 0, weaponLength := 35,
    weaponThickness := 20, weaponAngularVelocity := 6 / 1000,
    weaponDirX := 1, weaponDirY := 0, lastHit := [], flashUntil := 0,
    dead := false, accelSpeed := 0, maxAccel := 5, arrowCount := 1,
    fireballDamage := 2, fireballRadius := 50, poisonDamage := 4,
    poisonDuration := 3000, poisonStacks := [] }

/-- A concrete shield wielder (the shield spawn defaults of
`WEAPON_TYPES.shield`), placed at the origin with its weapon pointing
along the x-axis. -/
def shieldPlayer : Player :=
  { basePlayer with
    id := 1
    x := 0
    y := 0
    weaponType := .shield
    damage := 0
    weaponLength := 5
    weaponThickness := 30
    weaponAngularVelocity := 4 / 1000 }

/-- A concrete bow wielder (the bow spawn defaults of
`WEAPON_TYPES.bow`). -/
def bowPlayer : Player :=
  { basePlayer with
    id := 2
    weaponType := .bow
    damage := 0
    weaponLength := 30
    weaponThickness := 10
    arrowCount := 5 }

/-- A concrete fireball detonating at the origin with radius 40 and
damage 2, owned by player 9. -/
def fb40 : Fireball := ⟨0, 0, 2 / 5, 0, 9, 2, 40⟩

/-- Three concrete living non-owner combatants inside radius 40 of the
origin (distances 10, 20 and 30). -/
def victimA : Player := { basePlayer with id := 1, x := 10, y := 0 }

def victimB : Player :=
  { basePlayer with id := 2, x := 0, y := 20, health := 100 }

def victimC : Player :=
  { basePlayer with id := 3, x := 30, y := 0, health := 10 }

/-- A concrete poison scenario: a healthy target carrying one stack with
damage budget 10 and duration 1000 ms. -/
def poisonCase : PoisonTarget :=
  ⟨250, 0, 0, [⟨9, 10, 10, 1000, 1000⟩]⟩

/-! Helper lemmas: the weapon buffs never touch the damage statistics or
the health of the buffed player, and the poison-stack push only touches
`poisonStacks`. -/

theorem applyBuff_damageDealt (p : Player) :
    (applyBuff p).damageDealt = p.damageDealt := by
  cases hw : p.weaponType <;> simp [applyBuff, hw]

theorem applyBuff_damageReceived (p : Player) :
    (applyBuff p).damageReceived = p.damageReceived := by
  cases hw : p.weaponType <;> simp [applyBuff, hw]

theorem applyBuff_health (p : Player) :
    (applyBuff p).health = p.health := by
  cases hw : p.weaponType <;> simp [applyBuff, hw]

theorem applyBuff_maxHealth (p : Player) :
    (applyBuff p).maxHealth = p.maxHealth := by
  cases hw : p.weaponType <;> simp [applyBuff, hw]

theorem applyBuff_lastHit (p : Player) :
    (applyBuff p).lastHit = p.lastHit := by
  cases hw : p.weaponType <;> simp [applyBuff, hw]

theorem applyPoisonStack_health (o t : Player) :
    (applyPoisonStack o t).health = t.health := by
  unfold applyPoisonStack; split <;> rfl

theorem applyPoisonStack_damageReceived (o t : Player) :
    (applyPoisonStack o t).damageReceived = t.damageReceived := by
  unfold applyPoisonStack; split <;> rfl

theorem applyPoisonStack_maxHealth (o t : Player) :
    (applyPoisonStack o t).maxHealth = t.maxHealth := by
  unfold applyPoisonStack; split <;> rfl

/-- C1.  `applyDamage(attacker, target, amount, now)` sets the target's
health to `max 0 (health - amount)`, increases `attacker.damageDealt` by
exactly `amount` and `target.damageReceived` by exactly `amount`
unclamped; in particular at `target.health = 10` and `amount = 15` the
target ends with health 0 while its `damageReceived` grows by exactly
15. -/
theorem c1_applyDamage_clamps_and_credits :
    (∀ (attacker target : Player) (amount time : ℚ),
      ((applyDamage attacker target amount time).2.1.health
          = max 0 (target.health - amount)) ∧
      ((applyDamage attacker target amount time).1.damageDealt
          = attacker.damageDealt + amount) ∧
      ((applyDamage attacker target amount time).2.1.damageReceived
          = target.damageReceived + amount)) ∧
    ((applyDamage basePlayer { basePlayer with id := 1, health := 10 }
        15 0).2.1.health = 0 ∧
     (applyDamage basePlayer { basePlayer with id := 1, health := 10 }
        15 0).2.1.damageReceived
        = ({ basePlayer with id := 1, health := 10 } : Player).damageReceived
            + 15) := by
  constructor
  · intro attacker target amount time
    unfold applyDamage
    refine ⟨?_, ?_, ?_⟩
    · by_cases h : attacker.weaponType = .scythe <;>
        simp [h, applyPoisonStack_health]
    · by_cases h : attacker.weaponType = .scythe <;>
        simp [h, applyBuff_damageDealt]
    · by_cases h : attacker.weaponType = .scythe <;>
        simp [h, applyPoisonStack_damageReceived]
  · constructor
    · simp [applyDamage, basePlayer]
      norm_num
    · simp [applyDamage, basePlayer]

/-- C2, counterexample.  At exact tangency (centres 2 apart, radii 1 and
1, so distance = sum of radii) the spec's boundary-inclusive collision
property holds, yet `circleCollision` as implemented in `utils.js:26-32`
returns `false`: its comparison is strict.  So "returns true iff
distance ≤ sum of radii" fails at this input. -/
theorem c2_tangent_circles_counterexample :
    circleCollisionUtils ⟨0, 0, 1⟩ ⟨2, 0, 1⟩ = false ∧
    bodyCollisionSpec ⟨0, 0, 1⟩ ⟨2, 0, 1⟩ := by
  constructor
  · norm_num [circleCollisionUtils]
  · unfold bodyCollisionSpec
    have h4 : (((2 : ℚ) - 0 : ℚ) : ℝ) ^ 2 + (((0 : ℚ) - 0 : ℚ) : ℝ) ^ 2
        = (2 : ℝ) ^ 2 := by push_cast; ring
    rw [h4, Real.sqrt_sq (by norm_num)]
    push_cast
    norm_num

/-- C2, amended.  For nonnegative radii, the `utils.js` `circleCollision`
returns true iff the distance between the centres is STRICTLY LESS than
the sum of the radii (tangency is NOT a collision), while the duplicate
`circleCollision` of the first `game.js` revision (lines 136-141) is the
boundary-inclusive test the claim describes. -/
theorem c2_circleCollision_boundary (a b : Circle)
    (ha : 0 ≤ a.radius) (hb : 0 ≤ b.radius) :
    (circleCollisionUtils a b = true ↔ bodyCollisionSpecStrict a b) ∧
    (circleCollisionGame a b = true ↔ bodyCollisionSpec a b) := by
  have hs : (0 : ℝ) ≤ ((a.radius : ℚ) : ℝ) + ((b.radius : ℚ) : ℝ) := by
    have ha' : (0 : ℝ) ≤ ((a.radius : ℚ) : ℝ) := by exact_mod_cast ha
    have hb' : (0 : ℝ) ≤ ((b.radius : ℚ) : ℝ) := by exact_mod_cast hb
    linarith
  have hq : ∀ u v : ℚ, (u * u + v * v < (a.radius + b.radius) * (a.radius + b.radius)) ↔
      (((u : ℝ)) ^ 2 + ((v : ℝ)) ^ 2 < (((a.radius : ℚ) : ℝ) + ((b.radius : ℚ) : ℝ)) ^ 2) := by
    intro u v
    rw [show ((u : ℝ)) ^ 2 + ((v : ℝ)) ^ 2 = ((u * u + v * v : ℚ) : ℝ) by push_cast; ring,
        show (((a.radius : ℚ) : ℝ) + ((b.radius : ℚ) : ℝ)) ^ 2
          = (((a.radius + b.radius) * (a.radius + b.radius) : ℚ) : ℝ) by push_cast; ring]
    exact (Rat.cast_lt (K := ℝ)).symm
  have hq' : ∀ u v : ℚ, (u * u + v * v ≤ (a.radius + b.radius) * (a.radius + b.radius)) ↔
      (((u : ℝ)) ^ 2 + ((v : ℝ)) ^ 2 ≤ (((a.radius : ℚ) : ℝ) + ((b.radius : ℚ) : ℝ)) ^ 2) := by
    intro u v
    rw [show ((u : ℝ)) ^ 2 + ((v : ℝ)) ^ 2 = ((u * u + v * v : ℚ) : ℝ) by push_cast; ring,
        show (((a.radius : ℚ) : ℝ) + ((b.radius : ℚ) : ℝ)) ^ 2
          = (((a.radius + b.radius) * (a.radius + b.radius) : ℚ) : ℝ) by push_cast; ring]
    exact (Rat.cast_le (K := ℝ)).symm
  constructor
  · unfold circleCollisionUtils bodyCollisionSpecStrict
    simp only [decide_eq_true_eq]
    rw [hq (b.x - a.x) (b.y - a.y)]
    rcases eq_or_lt_of_le hs with hs0 | hs0
    · constructor
      · intro h
        exfalso
        have hd : (0 : ℝ) ≤ ((b.x - a.x : ℚ) : ℝ) ^ 2 + ((b.y - a.y : ℚ) : ℝ) ^ 2 := by
          positivity
        rw [← hs0] at h
        nlinarith
      · intro h
        exfalso
        have := Real.sqrt_nonneg (((b.x - a.x : ℚ) : ℝ) ^ 2 + ((b.y - a.y : ℚ) : ℝ) ^ 2)
        rw [← hs0] at h
        linarith
    · rw [Real.sqrt_lt' hs0]
  · unfold circleCollisionGame bodyCollisionSpec
    simp only [decide_eq_true_eq]
    have hxy : (a.x - b.x) * (a.x - b.x) + (a.y - b.y) * (a.y - b.y)
        = (b.x - a.x) * (b.x - a.x) + (b.y - a.y) * (b.y - a.y) := by ring
    rw [hxy, hq' (b.x - a.x) (b.y - a.y), Real.sqrt_le_left hs]

/-- C2, witness for the amended theorem: two overlapping unit circles
(centres 1 apart) collide under the `utils.js` implementation, derived
through the amended equivalence at this concrete input. -/
theorem c2_circleCollision_boundary_witness :
    circleCollisionUtils ⟨0, 0, 1⟩ ⟨1, 0, 1⟩ = true := by
  refine ((c2_circleCollision_boundary ⟨0, 0, 1⟩ ⟨1, 0, 1⟩
    (by norm_num) (by norm_num)).1).mpr ?_
  unfold bodyCollisionSpecStrict
  have h1 : (((1 : ℚ) - 0 : ℚ) : ℝ) ^ 2 + (((0 : ℚ) - 0 : ℚ) : ℝ) ^ 2
      = (1 : ℝ) ^ 2 := by push_cast; ring
  rw [h1, Real.sqrt_sq (by norm_num)]
  push_cast
  norm_num

theorem assocGet_assocSet (m : List (ℕ × ℚ)) (k : ℕ) (v : ℚ) :
    assocGet (assocSet m k v) k = some v := by
  simp [assocGet, assocSet]

theorem shieldClash_fst (a b : Player) (t : ℚ) (h : 0 < a.health) :
    (shieldClash a b t).1 = { a with
      health := max 0 (a.health - a.damage)
      damageReceived := a.damageReceived + a.damage
      flashUntil := t + 50 } := by
  unfold shieldClash
  rw [if_pos h]

theorem shieldClash_snd (a b : Player) (t : ℚ) (h : 0 < a.health) :
    (shieldClash a b t).2.1 =
      { applyBuff { b with damageDealt := b.damageDealt + a.damage } with
        lastHit := assocSet
          (applyBuff { b with damageDealt := b.damageDealt + a.damage }).lastHit
          a.id t } := by
  unfold shieldClash
  rw [if_pos h]

/-- C10.  The shield block in weapon-to-weapon collision handling applies
the self-inflicted damage to the living non-shield attacker on every
collision without consulting any cooldown: it records
`defender.lastHit[attacker.id]` but never reads it, so two collisions on
consecutive unpaused ticks (here less than the 300 ms cooldown apart)
decrease the attacker's health both times. -/
theorem c10_shieldClash_ignores_cooldown (attacker defender : Player)
    (t1 t2 : ℚ) (hgap : t2 - t1 < hitCooldown)
    (hd : 0 < attacker.damage) (hh : attacker.damage < attacker.health) :
    ((shieldClash attacker defender t1).1.health < attacker.health) ∧
    ((shieldClash (shieldClash attacker defender t1).1
        (shieldClash attacker defender t1).2.1 t2).1.health
      < (shieldClash attacker defender t1).1.health) ∧
    (assocGet (shieldClash attacker defender t1).2.1.lastHit attacker.id
      = some t1) := by
  have h0 : 0 < attacker.health := hd.trans hh
  have e1 := shieldClash_fst attacker defender t1 h0
  have e1h : (shieldClash attacker defender t1).1.health
      = attacker.health - attacker.damage := by
    rw [e1]; exact max_eq_right (by linarith)
  have e1d : (shieldClash attacker defender t1).1.damage
      = attacker.damage := by
    rw [e1]
  refine ⟨?_, ?_, ?_⟩
  · rw [e1h]; linarith
  · have h1 : 0 < (shieldClash attacker defender t1).1.health := by
      rw [e1h]; linarith
    have e2 := shieldClash_fst (shieldClash attacker defender t1).1
      (shieldClash attacker defender t1).2.1 t2 h1
    calc (shieldClash (shieldClash attacker defender t1).1
            (shieldClash attacker defender t1).2.1 t2).1.health
        = max 0 ((shieldClash attacker defender t1).1.health
            - (shieldClash attacker defender t1).1.damage) := by rw [e2]
      _ < (shieldClash attacker defender t1).1.health := by
          rw [e1h, e1d]
          exact max_lt_iff.mpr ⟨by linarith, by linarith⟩
  · rw [shieldClash_snd attacker defender t1 h0]
    exact assocGet_assocSet _ _ _

/-- C10, witness: a sword attacker (damage 5, health 250) clashing with a
shield on ticks 0 and 16 (16 ms apart, far below the 300 ms cooldown)
loses health on both ticks. -/
theorem c10_shieldClash_ignores_cooldown_witness :
    ((shieldClash basePlayer shieldPlayer 0).1.health < basePlayer.health) ∧
    ((shieldClash (shieldClash basePlayer shieldPlayer 0).1
        (shieldClash basePlayer shieldPlayer 0).2.1 16).1.health
      < (shieldClash basePlayer shieldPlayer 0).1.health) := by
  have h := c10_shieldClash_ignores_cooldown basePlayer shieldPlayer 0 16
    (by norm_num [hitCooldown]) (by norm_num [basePlayer])
    (by norm_num [basePlayer])
  exact ⟨h.1, h.2.1⟩

theorem applyBuff_shield_thickness (p : Player)
    (h : p.weaponType = .shield) :
    (applyBuff p).weaponThickness = min (p.weaponThickness + 5) 80 := by
  simp [applyBuff, h]

theorem arrowWeaponParry_hit_shield (ar : Arrow) (owner target : Player)
    (time : ℚ)
    (hhit : distancePointToSegmentSquared ⟨ar.x, ar.y⟩
        (weaponBase target) (weaponTip target)
      ≤ (target.weaponThickness / 2 + 3) * (target.weaponThickness / 2 + 3))
    (hsh : target.weaponType = .shield) (hal : 0 < owner.health) :
    arrowWeaponParry ar owner target time =
      (true,
       { owner with
         health := max 0 (owner.health - ar.damage)
         damageReceived := owner.damageReceived + ar.damage
         flashUntil := time + 50 },
       { applyBuff { target with
           damageDealt := target.damageDealt + ar.damage } with
         lastHit := assocSet (applyBuff { target with
           damageDealt := target.damageDealt + ar.damage }).lastHit
           owner.id time },
       time + 50) := by
  unfold arrowWeaponParry
  rw [if_pos hhit, if_pos ⟨hsh, hal⟩]

/-- C5, counterexample.  Two concrete deflections falsify the claim as
stated.  First, an arrow whose owner is already dead touching a shield
hitbox: the arrow is consumed but nothing is credited to the shield
wielder (`damageDealt` stays 0) and the shield width stays 30.  Second,
an arrow from a living owner touching a shield already at the maximum
width 80: the deflection happens, but the width stays exactly 80 — it
does not strictly increase. -/
theorem c5_arrow_shield_counterexample :
    ((arrowWeaponParry ⟨22, 0, 1 / 2, 0, 2, 1⟩
        { bowPlayer with health := 0, dead := true } shieldPlayer 0).1
      = true ∧
     (arrowWeaponParry ⟨22, 0, 1 / 2, 0, 2, 1⟩
        { bowPlayer with health := 0, dead := true } shieldPlayer 0).2.2.1.damageDealt
      = 0 ∧
     (arrowWeaponParry ⟨22, 0, 1 / 2, 0, 2, 1⟩
        { bowPlayer with health := 0, dead := true } shieldPlayer 0).2.2.1.weaponThickness
      = 30) ∧
    ((arrowWeaponParry ⟨22, 0, 1 / 2, 0, 2, 1⟩ bowPlayer
        { shieldPlayer with weaponThickness := 80 } 0).1 = true ∧
     (arrowWeaponParry ⟨22, 0, 1 / 2, 0, 2, 1⟩ bowPlayer
        { shieldPlayer with weaponThickness := 80 } 0).2.2.1.weaponThickness
      = 80) := by
  constructor
  · refine ⟨?_, ?_, ?_⟩ <;>
      norm_num [arrowWeaponParry, distancePointToSegmentSquared,
        weaponBase, weaponTip, shieldPlayer, bowPlayer, basePlayer]
  · constructor <;>
      norm_num [arrowWeaponParry, distancePointToSegmentSquared,
        weaponBase, weaponTip, shieldPlayer, bowPlayer, basePlayer,
        applyBuff, assocSet]

/-- C5, amended.  When an arrow comes within the parry threshold of a
shield-wielding non-owner's weapon hitbox AND the arrow's owner is still
alive, the arrow's damage is subtracted (floored at 0) from the owner's
health and credited to the shield wielder's `damageDealt`, the shield
wielder's own health is unchanged, the arrow is consumed, and the
shield's width becomes `min (width + 5) 80` — a strict increase exactly
while the width is below the cap 80.  (When the owner is dead, the arrow
is consumed with no other effect.) -/
theorem c5_arrow_shield_deflect (ar : Arrow) (owner target : Player)
    (time : ℚ)
    (hhit : distancePointToSegmentSquared ⟨ar.x, ar.y⟩
        (weaponBase target) (weaponTip target)
      ≤ (target.weaponThickness / 2 + 3) * (target.weaponThickness / 2 + 3))
    (hsh : target.weaponType = .shield) (hal : 0 < owner.health) :
    ((arrowWeaponParry ar owner target time).1 = true) ∧
    ((arrowWeaponParry ar owner target time).2.1.health
      = max 0 (owner.health - ar.damage)) ∧
    ((arrowWeaponParry ar owner target time).2.2.1.health = target.health) ∧
    ((arrowWeaponParry ar owner target time).2.2.1.damageDealt
      = target.damageDealt + ar.damage) ∧
    ((arrowWeaponParry ar owner target time).2.1.damageReceived
      = owner.damageReceived + ar.damage) ∧
    ((arrowWeaponParry ar owner target time).2.2.1.weaponThickness
      = min (target.weaponThickness + 5) 80) ∧
    (target.weaponThickness < 80 →
      target.weaponThickness
        < (arrowWeaponParry ar owner target time).2.2.1.weaponThickness) := by
  rw [arrowWeaponParry_hit_shield ar owner target time hhit hsh hal]
  have hsh' : ({ target with
      damageDealt := target.damageDealt + ar.damage } : Player).weaponType
      = .shield := hsh
  refine ⟨rfl, rfl, ?_, ?_, rfl, ?_, ?_⟩
  · exact applyBuff_health _
  · rw [show ({ applyBuff { target with
        damageDealt := target.damageDealt + ar.damage } with
        lastHit := assocSet (applyBuff { target with
          damageDealt := target.damageDealt + ar.damage }).lastHit
          owner.id time } : Player).damageDealt
      = (applyBuff { target with
          damageDealt := target.damageDealt + ar.damage }).damageDealt
      from rfl, applyBuff_damageDealt]
  · exact applyBuff_shield_thickness _ hsh'
  · intro hlt
    rw [show ({ applyBuff { target with
        damageDealt := target.damageDealt + ar.damage } with
        lastHit := assocSet (applyBuff { target with
          damageDealt := target.damageDealt + ar.damage }).lastHit
          owner.id time } : Player).weaponThickness
      = (applyBuff { target with
          damageDealt := target.damageDealt + ar.damage }).weaponThickness
      from rfl, applyBuff_shield_thickness _ hsh']
    exact lt_min (by linarith) hlt

/-- C5, witness for the amended theorem: an arrow from a living bow
owner deflected by a width-30 shield widens it to 35 and costs the owner
1 health (250 → 249). -/
theorem c5_arrow_shield_deflect_witness :
    (arrowWeaponParry ⟨22, 0, 1 / 2, 0, 2, 1⟩ bowPlayer shieldPlayer
        0).2.2.1.weaponThickness = 35 ∧
    (arrowWeaponParry ⟨22, 0, 1 / 2, 0, 2, 1⟩ bowPlayer shieldPlayer
        0).2.1.health = 249 := by
  have h := c5_arrow_shield_deflect ⟨22, 0, 1 / 2, 0, 2, 1⟩ bowPlayer
    shieldPlayer 0
    (by norm_num [distancePointToSegmentSquared, weaponBase, weaponTip,
      shieldPlayer, basePlayer])
    (by rfl) (by norm_num [bowPlayer, basePlayer])
  constructor
  · rw [h.2.2.2.2.2.1]
    norm_num [shieldPlayer, basePlayer]
  · rw [h.2.1]
    norm_num [bowPlayer, basePlayer]

/-- C6.  When a fireball detonates, every living non-owner combatant
whose centre lies within the fireball's radius of the detonation point
takes the fireball's damage (health floored at 0, `damageReceived`
credited), non-victims are untouched, the whole player list is processed
in one pass (so several simultaneous victims are possible), and the
owner's buff is applied exactly once iff at least one victim was hit. -/
theorem c6_explodeFireball_area (fb : Fireball) (time : ℚ)
    (players : List Player) (owner : Player) :
    (∀ t : Player, fbVictim fb t = true →
        (fbApply fb time t).health = max 0 (t.health - fb.damage) ∧
        (fbApply fb time t).damageReceived = t.damageReceived + fb.damage) ∧
    (∀ t : Player, fbVictim fb t = false → fbApply fb time t = t) ∧
    ((explodeFireball fb time players).1 = players.map (fbApply fb time)) ∧
    (((explodeFireball fb time players).2 ≠ 0) ↔
        ∃ t ∈ players, fbVictim fb t = true) ∧
    ((explodeFireball fb time players).2 ≠ 0 →
      explodeFireballOwner fb players owner
        = applyBuff { owner with damageDealt :=
            owner.damageDealt
              + fb.damage * (explodeFireball fb time players).2 }) ∧
    ((explodeFireball fb time players).2 = 0 →
      explodeFireballOwner fb players owner = owner) := by
  refine ⟨?_, ?_, rfl, ?_, ?_, ?_⟩
  · intro t h
    unfold fbApply
    rw [if_pos h]
    exact ⟨rfl, rfl⟩
  · intro t h
    unfold fbApply
    rw [if_neg (by simp [h])]
  · constructor
    · intro hne
      by_contra hex
      push_neg at hex
      refine hne (List.countP_eq_zero.mpr ?_)
      intro a ha
      simp [hex a ha]
    · rintro ⟨t, ht, hv⟩ h0
      have := List.countP_eq_zero.mp h0 t ht
      simp [hv] at this
  · intro h
    have h' : players.countP (fbVictim fb) ≠ 0 := h
    unfold explodeFireballOwner
    rw [if_pos h']
    rfl
  · intro h0
    have h0' : players.countP (fbVictim fb) = 0 := h0
    unfold explodeFireballOwner
    rw [if_neg (by simp [h0']), h0']
    simp

/-- C6, witness: the fireball `fb40` (radius 40, damage 2, owner 9)
detonating at the origin damages all three living non-owner combatants
inside that radius in the same detonation (victim count 3), with each
health clamped subtraction visible. -/
theorem c6_explodeFireball_area_witness :
    (fbApply fb40 0 victimA).health = 248 ∧
    (fbApply fb40 0 victimB).health = 98 ∧
    (fbApply fb40 0 victimC).health = 8 ∧
    (explodeFireball fb40 0 [victimA, victimB, victimC]).2 = 3 := by
  have h := c6_explodeFireball_area fb40 0 [victimA, victimB, victimC]
    basePlayer
  refine ⟨?_, ?_, ?_, ?_⟩
  · rw [(h.1 victimA (by norm_num [fbVictim, victimA, basePlayer, fb40])).1,
      show victimA.health - fb40.damage = 248 by
        norm_num [victimA, basePlayer, fb40],
      max_eq_right (by norm_num : (0 : ℚ) ≤ 248)]
  · rw [(h.1 victimB (by norm_num [fbVictim, victimB, basePlayer, fb40])).1,
      show victimB.health - fb40.damage = 98 by
        norm_num [victimB, basePlayer, fb40],
      max_eq_right (by norm_num : (0 : ℚ) ≤ 98)]
  · rw [(h.1 victimC (by norm_num [fbVictim, victimC, basePlayer, fb40])).1,
      show victimC.health - fb40.damage = 8 by
        norm_num [victimC, basePlayer, fb40],
      max_eq_right (by norm_num : (0 : ℚ) ≤ 8)]
  · norm_num [explodeFireball, List.countP_cons, List.countP_nil,
      fbVictim, victimA, victimB, victimC, basePlayer, fb40]

theorem applyDamage_target_health (a t : Player) (d time : ℚ) :
    (applyDamage a t d time).2.1.health = max 0 (t.health - d) := by
  unfold applyDamage
  by_cases h : a.weaponType = .scythe <;> simp [h, applyPoisonStack_health]

theorem applyDamage_target_maxHealth (a t : Player) (d time : ℚ) :
    (applyDamage a t d time).2.1.maxHealth = t.maxHealth := by
  unfold applyDamage
  by_cases h : a.weaponType = .scythe <;> simp [h, applyPoisonStack_maxHealth]

theorem poisonStackStep_health_bounds (delta time h dr f : ℚ)
    (st : PoisonStack) (h0 : 0 ≤ h) :
    0 ≤ (poisonStackStep delta time h dr f st).1 ∧
    (poisonStackStep delta time h dr f st).1 ≤ h := by
  unfold poisonStackStep
  dsimp only
  split
  · rename_i hc
    exact ⟨le_max_left _ _, max_le h0 (by linarith [hc.1])⟩
  · exact ⟨h0, le_refl h⟩

theorem poisonFold_health_bounds (delta time : ℚ) (sts : List PoisonStack) :
    ∀ h dr f : ℚ, 0 ≤ h →
      0 ≤ (poisonFold delta time h dr f sts).1 ∧
      (poisonFold delta time h dr f sts).1 ≤ h := by
  induction sts with
  | nil => intro h dr f h0; exact ⟨h0, le_refl h⟩
  | cons st rest ih =>
    intro h dr f h0
    have hs := poisonStackStep_health_bounds delta time h dr f st h0
    have hrec := ih (poisonStackStep delta time h dr f st).1
      (poisonStackStep delta time h dr f st).2.1
      (poisonStackStep delta time h dr f st).2.2.1 hs.1
    unfold poisonFold
    exact ⟨hrec.1, hrec.2.trans hs.2⟩

theorem poisonFold_kept_pos (delta time : ℚ) (sts : List PoisonStack) :
    ∀ h dr f : ℚ, ∀ st' ∈ (poisonFold delta time h dr f sts).2.2.2,
      0 < st'.remainingDamage ∧ 0 < st'.remainingTime := by
  induction sts with
  | nil =>
    intro h dr f st' hmem
    simp [poisonFold] at hmem
  | cons st rest ih =>
    intro h dr f st' hmem
    unfold poisonFold at hmem
    rw [List.mem_append] at hmem
    rcases hmem with hmem | hmem
    · revert hmem
      unfold poisonStackStep
      dsimp only
      split
      · rename_i hc
        intro hmem
        simp only [Option.toList_some, List.mem_singleton] at hmem
        subst hmem
        exact hc
      · intro hmem
        simp at hmem
    · exact ih _ _ _ st' hmem

/-- C9.  Every health-mutating operation preserves the invariant
`0 ≤ health ≤ maxHealth`: `applyDamage` on the target, the shield
weapon-clash reflection on the attacker, an arrow body hit on the
target, an arrow shield deflection on the arrow's owner, a fireball
detonation on each victim, and a poison tick on the target, each started
from health within `[0, max]` with a nonnegative damage amount, land
back inside `[0, max]`. -/
theorem c9_health_clamped :
    (∀ (a t : Player) (d time : ℚ), 0 ≤ d →
      0 ≤ t.health → t.health ≤ t.maxHealth →
      0 ≤ (applyDamage a t d time).2.1.health ∧
      (applyDamage a t d time).2.1.health
        ≤ (applyDamage a t d time).2.1.maxHealth) ∧
    (∀ (a b : Player) (time : ℚ), 0 ≤ a.damage →
      0 ≤ a.health → a.health ≤ a.maxHealth →
      0 ≤ (shieldClash a b time).1.health ∧
      (shieldClash a b time).1.health ≤ (shieldClash a b time).1.maxHealth) ∧
    (∀ (ar : Arrow) (o t : Player) (time : ℚ), 0 ≤ ar.damage →
      0 ≤ o.health → o.health ≤ o.maxHealth →
      0 ≤ (arrowWeaponParry ar o t time).2.1.health ∧
      (arrowWeaponParry ar o t time).2.1.health
        ≤ (arrowWeaponParry ar o t time).2.1.maxHealth) ∧
    (∀ (ar : Arrow) (o t : Player) (time : ℚ), 0 ≤ ar.damage →
      0 ≤ t.health → t.health ≤ t.maxHealth →
      0 ≤ (arrowBodyHit ar o t time).2.health ∧
      (arrowBodyHit ar o t time).2.health
        ≤ (arrowBodyHit ar o t time).2.maxHealth) ∧
    (∀ (fb : Fireball) (time : ℚ) (t : Player), 0 ≤ fb.damage →
      0 ≤ t.health → t.health ≤ t.maxHealth →
      0 ≤ (fbApply fb time t).health ∧
      (fbApply fb time t).health ≤ (fbApply fb time t).maxHealth) ∧
    (∀ (delta time M : ℚ) (tp : PoisonTarget),
      0 ≤ tp.health → tp.health ≤ M →
      0 ≤ (updatePoisonEffectsTarget delta time tp).health ∧
      (updatePoisonEffectsTarget delta time tp).health ≤ M) := by
  refine ⟨?_, ?_, ?_, ?_, ?_, ?_⟩
  · intro a t d time hd h0 hM
    rw [applyDamage_target_health, applyDamage_target_maxHealth]
    exact ⟨le_max_left _ _, max_le (h0.trans hM) (by linarith)⟩
  · intro a b time hd h0 hM
    by_cases hp : 0 < a.health
    · rw [shieldClash_fst a b time hp]
      exact ⟨le_max_left _ _, max_le (h0.trans hM) (by linarith)⟩
    · have hcl : shieldClash a b time = (a, b, time) := by
        unfold shieldClash
        rw [if_neg hp]
      rw [hcl]
      exact ⟨h0, hM⟩
  · intro ar o t time hd h0 hM
    unfold arrowWeaponParry
    dsimp only
    split
    · split
      · exact ⟨le_max_left _ _, max_le (h0.trans hM) (by linarith)⟩
      · exact ⟨h0, hM⟩
    · exact ⟨h0, hM⟩
  · intro ar o t time hd h0 hM
    unfold arrowBodyHit
    exact ⟨le_max_left _ _, max_le (h0.trans hM) (by linarith)⟩
  · intro fb time t hd h0 hM
    unfold fbApply
    split
    · exact ⟨le_max_left _ _, max_le (h0.trans hM) (by linarith)⟩
    · exact ⟨h0, hM⟩
  · intro delta time M tp h0 hM
    have hb := poisonFold_health_bounds delta time tp.poisonStacks
      tp.health tp.damageReceived tp.flashUntil h0
    unfold updatePoisonEffectsTarget
    exact ⟨hb.1, hb.2.trans hM⟩

/-- C9, witness: a plain `applyDamage` of 5 on a full-health sword
player stays within `[0, maxHealth]`, through the invariant theorem at a
concrete input. -/
theorem c9_health_clamped_witness :
    0 ≤ (applyDamage basePlayer { basePlayer with id := 1 } 5 0).2.1.health ∧
    (applyDamage basePlayer { basePlayer with id := 1 } 5 0).2.1.health
      ≤ (applyDamage basePlayer { basePlayer with id := 1 } 5 0).2.1.maxHealth :=
  c9_health_clamped.1 basePlayer { basePlayer with id := 1 } 5 0
    (by norm_num) (by norm_num [basePlayer]) (by norm_num [basePlayer])

/-- C7.  Poison ticks: each tick applies
`(stackDamage / stackDuration) * delta` clamped to the remaining damage
budget (credited to the living target's `damageReceived`); every stack
surviving a tick still has positive remaining damage and remaining time
(a stack is discarded as soon as either budget reaches zero); and the
concrete scenario — a stack with damage 10 and duration 1000 ms ticked
four times at `delta = 250` ms on a living target — deals a cumulative
10 damage exactly and leaves no stack behind. -/
theorem c7_poison_budget_and_expiry :
    (∀ (delta time h dr f : ℚ) (st : PoisonStack),
      0 < min (st.damage / st.duration * delta) st.remainingDamage →
      0 < h →
      (poisonStackStep delta time h dr f st).2.1
        = dr + min (st.damage / st.duration * delta) st.remainingDamage) ∧
    (∀ (delta time : ℚ) (tp : PoisonTarget),
      ∀ st' ∈ (updatePoisonEffectsTarget delta time tp).poisonStacks,
        0 < st'.remainingDamage ∧ 0 < st'.remainingTime) ∧
    ((updatePoisonEffectsTarget 250 750
        (updatePoisonEffectsTarget 250 500
          (updatePoisonEffectsTarget 250 250
            (updatePoisonEffectsTarget 250 0 poisonCase)))).damageReceived
        = 10 ∧
     (updatePoisonEffectsTarget 250 750
        (updatePoisonEffectsTarget 250 500
          (updatePoisonEffectsTarget 250 250
            (updatePoisonEffectsTarget 250 0 poisonCase)))).poisonStacks
        = [] ∧
     (updatePoisonEffectsTarget 250 750
        (updatePoisonEffectsTarget 250 500
          (updatePoisonEffectsTarget 250 250
            (updatePoisonEffectsTarget 250 0 poisonCase)))).health
        = 240) := by
  refine ⟨?_, ?_, ?_⟩
  · intro delta time h dr f st hamt hh
    unfold poisonStackStep
    dsimp only
    rw [if_pos (by exact ⟨hamt, hh⟩)]
  · intro delta time tp st' hmem
    exact poisonFold_kept_pos delta time tp.poisonStacks
      tp.health tp.damageReceived tp.flashUntil st' hmem
  · have e1 : updatePoisonEffectsTarget 250 0 poisonCase
        = ⟨495 / 2, 5 / 2, 50, [⟨9, 10, 15 / 2, 1000, 750⟩]⟩ := by
      norm_num [updatePoisonEffectsTarget, poisonFold, poisonStackStep,
        poisonCase, min_def, max_def]
    have e2 : updatePoisonEffectsTarget 250 250
        (⟨495 / 2, 5 / 2, 50, [⟨9, 10, 15 / 2, 1000, 750⟩]⟩ : PoisonTarget)
        = ⟨245, 5, 300, [⟨9, 10, 5, 1000, 500⟩]⟩ := by
      norm_num [updatePoisonEffectsTarget, poisonFold, poisonStackStep,
        min_def, max_def]
    have e3 : updatePoisonEffectsTarget 250 500
        (⟨245, 5, 300, [⟨9, 10, 5, 1000, 500⟩]⟩ : PoisonTarget)
        = ⟨485 / 2, 15 / 2, 550, [⟨9, 10, 5 / 2, 1000, 250⟩]⟩ := by
      norm_num [updatePoisonEffectsTarget, poisonFold, poisonStackStep,
        min_def, max_def]
    have e4 : updatePoisonEffectsTarget 250 750
        (⟨485 / 2, 15 / 2, 550, [⟨9, 10, 5 / 2, 1000, 250⟩]⟩ : PoisonTarget)
        = ⟨240, 10, 800, []⟩ := by
      norm_num [updatePoisonEffectsTarget, poisonFold, poisonStackStep,
        min_def, max_def]
    rw [e1, e2, e3, e4]
    exact ⟨rfl, rfl, rfl⟩

/-- C7, witness: the per-tick clamped-budget formula evaluated on the
scenario stack at its first tick credits exactly 2.5 damage. -/
theorem c7_poison_budget_and_expiry_witness :
    (poisonStackStep 250 0 250 0 0 ⟨9, 10, 10, 1000, 1000⟩).2.1 = 5 / 2 := by
  rw [c7_poison_budget_and_expiry.1 250 0 250 0 0 ⟨9, 10, 10, 1000, 1000⟩
    (by rw [lt_min_iff]; norm_num) (by norm_num)]
  norm_num [min_def]

theorem hitCooldown_pos : 0 < hitCooldown := by norm_num [hitCooldown]

theorem dispatchTimes_all_gt (evs : List (Bool × ℚ)) :
    ∀ s : ℚ, ∀ t ∈ dispatchTimes evs s, s + hitCooldown < t := by
  induction evs with
  | nil =>
    intro s t ht
    simp [dispatchTimes] at ht
  | cons e rest ih =>
    intro s t ht
    rcases e with ⟨hit, t0⟩
    unfold dispatchTimes at ht
    split at ht
    · rename_i hc
      rcases List.mem_cons.mp ht with rfl | hmem
      · linarith [hc.2]
      · have h2 := ih t0 t hmem
        have := hitCooldown_pos
        linarith [hc.2]
    · exact ih s t ht

/-- C3.  For every fixed attacker→target pair, no two `applyDamage`
dispatches through the melee/unarmed hit gate occur less than the 300 ms
cooldown apart: every sequence of hit attempts run through the gate
(`t - last > hitCooldown`, with `last` updated by the dispatch) yields
dispatch timestamps that are pairwise MORE than `hitCooldown` apart; and
`applyDamage` itself records `attacker.lastHit[target.id] = now`. -/
theorem c3_melee_cooldown_spacing :
    (∀ (evs : List (Bool × ℚ)) (last : ℚ),
      List.Pairwise (fun t1 t2 => t1 + hitCooldown < t2)
        (dispatchTimes evs last)) ∧
    (∀ (attacker target : Player) (d time : ℚ),
      assocGet (applyDamage attacker target d time).1.lastHit target.id
        = some time) := by
  constructor
  · intro evs
    induction evs with
    | nil =>
      intro last
      simp [dispatchTimes]
    | cons e rest ih =>
      intro last
      rcases e with ⟨hit, t0⟩
      unfold dispatchTimes
      split
      · exact List.Pairwise.cons
          (fun t ht => dispatchTimes_all_gt rest t0 t ht) (ih t0)
      · exact ih last
  · intro attacker target d time
    unfold applyDamage
    dsimp only
    exact assocGet_assocSet _ _ _

/-- C4.  The claim says a simulation step leaves a dead combatant's
position and velocity unchanged.  The code contradicts this (and its own
`Skip updates if dead` comment): `Player.update` integrates position and
re-applies gravity BEFORE the `if (this.dead) return` check, so after
`updateDeaths` zeroes a dead player's velocity, gravity rebuilds `vy`
on the very next tick and the corpse starts falling from the tick after
that. -/
theorem c4_dead_player_still_falls :
    ((updateDeathCheck { basePlayer with
        health := 0, vx := 3 / 10, vy := 1 / 10 }).dead = true) ∧
    ((updateDeathCheck { basePlayer with
        health := 0, vx := 3 / 10, vy := 1 / 10 }).vx = 0) ∧
    ((updateDeathCheck { basePlayer with
        health := 0, vx := 3 / 10, vy := 1 / 10 }).vy = 0) ∧
    ((updateThroughDeadCheck 16 (updateDeathCheck { basePlayer with
        health := 0, vx := 3 / 10, vy := 1 / 10 })).vy ≠ 0) ∧
    ((updateThroughDeadCheck 16 (updateThroughDeadCheck 16
        (updateDeathCheck { basePlayer with
          health := 0, vx := 3 / 10, vy := 1 / 10 }))).y
      ≠ (updateDeathCheck { basePlayer with
          health := 0, vx := 3 / 10, vy := 1 / 10 }).y) := by
  simp [updateDeathCheck, updateThroughDeadCheck, basePlayer, GRAVITY]

/-- C8.  For a scythe polygon built from a weapon of length `L`, shaft
fraction `r` and blade-radius fraction `b` (with the blade at least as
wide as the half-thickness, and unit arc samples that include the
on-axis midpoint sample — true for the even default resolutions 18, 20
and 28), every vertex lies within distance `L*r + L*b` of the weapon
base, and the midpoint arc vertex sits exactly at distance `L*r + L*b`
from the base along the weapon axis.  So the farthest vertex from the
base is at distance `L*r + L*b` on the axis, exactly (the discretization
tolerance of the arc sampling is zero at the midpoint sample). -/
theorem c8_scythe_farthest_vertex (base dir : Pt) (L r b halfW : ℚ)
    (arc : List Pt)
    (hdir : dir.x ^ 2 + dir.y ^ 2 = 1)
    (hL : 0 ≤ L) (hr : 0 ≤ r) (hb : 0 ≤ b)
    (hw : 0 ≤ halfW) (hwb : halfW ≤ L * b)
    (harc : ∀ u ∈ arc, u.x ^ 2 + u.y ^ 2 = 1)
    (hmid : (⟨1, 0⟩ : Pt) ∈ arc) :
    (∀ v ∈ buildScythePolygon base dir L r b halfW arc,
        distSqPt base v ≤ (L * r + L * b) ^ 2) ∧
    ((⟨base.x + (L * r + L * b) * dir.x,
       base.y + (L * r + L * b) * dir.y⟩ : Pt)
        ∈ buildScythePolygon base dir L r b halfW arc) ∧
    (distSqPt base
        ⟨base.x + (L * r + L * b) * dir.x, base.y + (L * r + L * b) * dir.y⟩
      = (L * r + L * b) ^ 2) := by
  have hs : (0 : ℚ) ≤ L * r := mul_nonneg hL hr
  have hB : (0 : ℚ) ≤ L * b := mul_nonneg hL hb
  refine ⟨?_, ?_, ?_⟩
  · intro v hv
    simp only [buildScythePolygon, List.mem_cons, List.mem_append,
      List.mem_map, List.mem_singleton] at hv
    rcases hv with rfl | rfl | ⟨u, humem, rfl⟩ | rfl | rfl | h0
    · have e : distSqPt base
          (⟨base.x + -dir.y * halfW, base.y + dir.x * halfW⟩ : Pt)
          = halfW ^ 2 * (dir.x ^ 2 + dir.y ^ 2) := by
        unfold distSqPt
        ring
      rw [e, hdir, mul_one]
      nlinarith [hwb, hw, hs, hB]
    · have e : distSqPt base
          (⟨base.x + dir.x * (L * r) + -dir.y * halfW,
            base.y + dir.y * (L * r) + dir.x * halfW⟩ : Pt)
          = ((L * r) ^ 2 + halfW ^ 2) * (dir.x ^ 2 + dir.y ^ 2) := by
        unfold distSqPt
        ring
      rw [e, hdir, mul_one]
      nlinarith [hwb, hw, hs, hB]
    · have hu := harc u humem
      have hux : u.x ≤ 1 := by
        nlinarith [sq_nonneg u.y, sq_nonneg (u.x - 1)]
      have e : distSqPt base
          (⟨base.x + dir.x * (L * r)
              + L * b * (dir.x * u.x - dir.y * u.y),
            base.y + dir.y * (L * r)
              + L * b * (dir.y * u.x + dir.x * u.y)⟩ : Pt)
          = (L * r) ^ 2 * (dir.x ^ 2 + dir.y ^ 2)
            + (L * b) ^ 2 * ((dir.x ^ 2 + dir.y ^ 2) * (u.x ^ 2 + u.y ^ 2))
            + 2 * (L * r) * (L * b) * u.x * (dir.x ^ 2 + dir.y ^ 2) := by
        unfold distSqPt
        ring
      rw [e, hdir, hu]
      nlinarith [mul_nonneg (mul_nonneg hs hB) (sub_nonneg.mpr hux)]
    · have e : distSqPt base
          (⟨base.x + dir.x * (L * r) - -dir.y * halfW,
            base.y + dir.y * (L * r) - dir.x * halfW⟩ : Pt)
          = ((L * r) ^ 2 + halfW ^ 2) * (dir.x ^ 2 + dir.y ^ 2) := by
        unfold distSqPt
        ring
      rw [e, hdir, mul_one]
      nlinarith [hwb, hw, hs, hB]
    · have e : distSqPt base
          (⟨base.x - -dir.y * halfW, base.y - dir.x * halfW⟩ : Pt)
          = halfW ^ 2 * (dir.x ^ 2 + dir.y ^ 2) := by
        unfold distSqPt
        ring
      rw [e, hdir, mul_one]
      nlinarith [hwb, hw, hs, hB]
    · simp at h0
  · simp only [buildScythePolygon, List.mem_cons, List.mem_append,
      List.mem_map, List.mem_singleton]
    refine Or.inr (Or.inr (Or.inl ⟨⟨1, 0⟩, hmid, ?_⟩))
    simp only [Pt.mk.injEq]
    constructor <;> ring
  · have e : distSqPt base
        (⟨base.x + (L * r + L * b) * dir.x,
          base.y + (L * r + L * b) * dir.y⟩ : Pt)
        = (L * r + L * b) ^ 2 * (dir.x ^ 2 + dir.y ^ 2) := by
      unfold distSqPt
      ring
    rw [e, hdir, mul_one]

/-- C8, witness: the polygon of an axis-aligned scythe of length 80 with
the default fractions 0.55 and 0.45 and half-thickness 7, sampled with
the three-point arc, contains the axis vertex at distance 80 from the
base (squared distance 6400 = 80²), and every vertex is within that
distance. -/
theorem c8_scythe_farthest_vertex_witness :
    distSqPt ⟨0, 0⟩ ⟨0 + (80 * (11 / 20) + 80 * (9 / 20)) * 1,
        0 + (80 * (11 / 20) + 80 * (9 / 20)) * 0⟩
      = (80 * (11 / 20) + 80 * (9 / 20)) ^ 2 ∧
    (⟨0 + (80 * (11 / 20) + 80 * (9 / 20)) * 1,
      0 + (80 * (11 / 20) + 80 * (9 / 20)) * 0⟩ : Pt)
      ∈ buildScythePolygon ⟨0, 0⟩ ⟨1, 0⟩ 80 (11 / 20) (9 / 20) 7
          [⟨0, -1⟩, ⟨1, 0⟩, ⟨0, 1⟩] := by
  have h := c8_scythe_farthest_vertex ⟨0, 0⟩ ⟨1, 0⟩ 80 (11 / 20) (9 / 20) 7
    [⟨0, -1⟩, ⟨1, 0⟩, ⟨0, 1⟩]
    (by norm_num) (by norm_num) (by norm_num) (by norm_num)
    (by norm_num) (by norm_num)
    (by
      intro u hu
      simp only [List.mem_cons, List.mem_singleton] at hu
      rcases hu with rfl | rfl | rfl | h0
      · norm_num
      · norm_num
      · norm_num
      · simp at h0)
    (List.mem_cons_of_mem _ (List.mem_cons_self _ _))
  exact ⟨h.2.2, h.2.1⟩

end WeaponBalls
